import Mathlib

deriving instance DecidableEq for Except

/-!
Verification of the partialzip core (`src/partzip.rs`) against its
natural-language specification.

The development shallowly embeds the two Rust source components:

* `PartialReader` — the lazy random-access stream over a remote resource
  (`io::Read::read` and `io::Seek::seek` implementations, plus
  `PartialReader::new` with its optional range-support probe);
* `PartialZip` — the archive session (`new`, `list`, `download`).

Machine integers are modelled as `Nat` (`u64` / `usize`, both 64-bit wide)
and `Int` (`i64`), with the checked arithmetic of the source made explicit:
`checked_add` / `checked_sub` on `u64` are `Option`-valued functions that
fail exactly when the Rust ones return `None`.  Fallible operations return
`Except`.  The HTTP transport is modelled as an honest range-serving
resource: a byte function `data : Nat → Nat` together with the declared
total size, so that a range request for `start-end` yields exactly the
bytes `data start, …, data end`.  Transport failures are out of scope of
the claims treated here.  The external archive-format library (the `zip`
crate) is not part of this repository; where a claim depends on its
behaviour it is modelled from the specification's interface contract
(spec §6), as noted on the corresponding definitions.
-/

namespace Partzip

/-- Largest value of a Rust `u64` (and of `usize` on the 64-bit targets
this crate runs on). -/
def U64MAX : Nat := 2 ^ 64 - 1

/-- Rust `u64::checked_add`: `none` exactly on overflow past `U64MAX`. -/
def checkedAddU64 (a b : Nat) : Option Nat :=
  if a + b ≤ U64MAX then some (a + b) else none

/-- Rust `u64::checked_sub`: `none` exactly on underflow below zero. -/
def checkedSubU64 (a b : Nat) : Option Nat :=
  if b ≤ a then some (a - b) else none

/-- The distinct error exits of `PartialReader::read`
(`src/partzip.rs` lines 218–288), one constructor per `io::Error`
construction site in the source. -/
inductive ReadErr where
  /-- `start + buf.len()` overflowed `u64` (`checked_add` returned `None`). -/
  | addOverflow
  /-- `start + buf.len() - 1` underflowed (`checked_sub(1)` returned `None`). -/
  | subUnderflow
  /-- `file_size - 1` underflowed (`file_size == 0`). -/
  | fileSizeUnderflow
  /-- `content_end < content_start` inconsistency check fired. -/
  | endLtStart
  /-- advancing `pos` by the bytes read overflowed `u64`. -/
  | posOverflow
deriving DecidableEq, Repr

/-- Shallow embedding of `io::Read::read` for `PartialReader`
(`src/partzip.rs` lines 218–288).  Inputs: the remote resource as a byte
function `data`, the reader's `file_size` and `pos` fields, and the
caller's buffer length `bufLen` (`buf.len()`, a `usize`, hence `< 2^64`).
Output on success: the bytes copied into the buffer and the new `pos`;
the returned count `n` of the source is the length of that byte list.
The `buf.len().to_u64()` and `n.to_u64()` conversions of the source never
fail on a 64-bit target and are elided.  The curl transfer is modelled as
an honest range server: the response body for range `start-end` is
`data start, …, data end`. -/
def PartialReader.read (data : Nat → Nat) (file_size pos bufLen : Nat) :
    Except ReadErr (List Nat × Nat) :=
  if file_size ≤ pos then .ok ([], pos)
  else
    let start := pos
    match checkedAddU64 start bufLen with
    | none => .error .addOverflow
    | some s =>
      match checkedSubU64 s 1 with
      | none => .error .subUnderflow
      | some maybeEnd =>
        match checkedSubU64 file_size 1 with
        | none => .error .fileSizeUnderflow
        | some sizeLess1 =>
          let e := min maybeEnd sizeLess1
          if e < start then .error .endLtStart
          else
            let content := (List.range (e - start + 1)).map (fun i => data (start + i))
            let n := min content.length bufLen
            match checkedAddU64 pos n with
            | none => .error .posOverflow
            | some newPos => .ok (content.take bufLen, newPos)

/-- Rust `io::SeekFrom`: the seek origin plus offset.
`fromStart` carries a `u64`, the other two carry an `i64`. -/
inductive SeekFrom where
  | fromStart (n : Nat)
  | fromEnd (n : Int)
  | fromCurrent (n : Int)
deriving DecidableEq, Repr

/-- The error exits of `io::Seek::seek` for `PartialReader`
(`src/partzip.rs` lines 291–323). -/
inductive SeekErr where
  /-- `u64::value_from(offset.wrapping_neg())` failed (only for
  `offset = i64::MIN`, whose wrapping negation is itself), surfaced as an
  `InvalidData` error by the `map_err` in the source. -/
  | convError
  /-- the `checked_add`/`checked_sub` produced `None`: seek to a negative
  or overflowing position (`InvalidInput` in the source). -/
  | invalidSeek
deriving DecidableEq, Repr

/-- Smallest value of a Rust `i64`. -/
def I64MIN : Int := -(2 ^ 63)

/-- The shared tail of `seek` for the `End`/`Current` origins:
`base ± offset` with checked `u64` arithmetic (`src/partzip.rs` lines
302–322).  Returns the `io::Result` together with the reader's `pos`
field after the call (the source only assigns `self.pos` in the `Some`
branch).  For a negative offset the source computes
`u64::value_from(offset.wrapping_neg())`; for `offset = i64::MIN` the
wrapping negation is still negative and the conversion fails. -/
def seekWithOffset (pos base : Nat) (offset : Int) : Except SeekErr Nat × Nat :=
  if 0 ≤ offset then
    match checkedAddU64 base offset.toNat with
    | some n => (.ok n, n)
    | none => (.error .invalidSeek, pos)
  else if offset = I64MIN then (.error .convError, pos)
  else
    match checkedSubU64 base (-offset).toNat with
    | some n => (.ok n, n)
    | none => (.error .invalidSeek, pos)

/-- Shallow embedding of `io::Seek::seek` for `PartialReader`
(`src/partzip.rs` lines 291–323).  Inputs: the reader's `file_size` and
`pos`; output: the returned `io::Result<u64>` and the `pos` field after
the call. -/
def PartialReader.seek (file_size pos : Nat) : SeekFrom → Except SeekErr Nat × Nat
  | .fromStart n => (.ok n, n)
  | .fromEnd n => seekWithOffset pos file_size n
  | .fromCurrent n => seekWithOffset pos pos n

/-- `zip::CompressionMethod` restricted to what the source inspects: the
four codecs named in the `matches!` of `PartialZip::list`
(`src/partzip.rs` lines 123–129) and a catch-all for every other declared
method, carrying its `u16` tag. -/
inductive CompressionMethod where
  | stored
  | deflated
  | bzip2
  | zstd
  | otherMethod (tag : Nat)
deriving DecidableEq, Repr

/-- The `matches!` test of `PartialZip::list` (`src/partzip.rs` lines
123–129): true exactly on the four codecs this crate can decode. -/
def isSupportedMethod : CompressionMethod → Bool
  | .stored => true
  | .deflated => true
  | .bzip2 => true
  | .zstd => true
  | .otherMethod _ => false

/-- Errors of the external `zip` crate (`zip::result::ZipError`) as far
as this development needs them.  The crate itself is outside this
repository; the constructors used are the ones its spec-§6 contract
forces: a by-name lookup miss and an unimplemented compression method at
entry-open time, plus wrapped I/O errors. -/
inductive ZipError where
  | fileNotFound
  | unsupportedArchive (msg : String)
  | invalidArchive (msg : String)
  | ioError (msg : String)
deriving DecidableEq, Repr

/-- `PartialZipError` (`src/partzip.rs` lines 17–40), one constructor per
variant of the source enum (CURL error details are not modelled). -/
inductive PartialZipError where
  | invalidUrl
  | fileNotFound
  | rangeNotSupported
  | unsupportedCompression (tag : Nat)
  | zipRsError (e : ZipError)
  | curlError
  | genericError (msg : String)
deriving DecidableEq, Repr

/-- The `From<ZipError>` conversion applied by `?` in `PartialZip`
(`src/partzip.rs` lines 43–47): every zip-crate error is wrapped as
`ZipRsError`, never translated to another variant. -/
def fromZipError (e : ZipError) : PartialZipError := .zipRsError e

/-- One entry of the parsed central directory as the format library
reports it: name, compressed size, declared method, and the entry's
decompressed payload (what `read_to_end` on the library's decompressing
stream yields). -/
structure ZipEntry where
  name : String
  compressed_size : Nat
  method : CompressionMethod
  data : List Nat
deriving DecidableEq, Repr

/-- The parsed directory held by a `PartialZip` session: the format
library's entries in archive (index) order. -/
structure ZipModel where
  entries : List ZipEntry
deriving DecidableEq, Repr

/-- Modelled from the spec: the external archive-format library's by-name
entry lookup (spec §6), which is not part of this repository.  Per §6 the
directory is "queryable … by exact-name lookup" resolving to the first
match, and the library "errors if the method is unimplemented by the
library"; a miss is the library's own file-not-found error, an
unimplemented method its entry-open error. -/
def ZipModel.by_name (z : ZipModel) (filename : String) : Except ZipError ZipEntry :=
  match z.entries.find? (fun e => e.name == filename) with
  | none => .error .fileNotFound
  | some e =>
    if isSupportedMethod e.method then .ok e
    else .error (.unsupportedArchive "Compression method not supported")

/-- Shallow embedding of `PartialZip::download` (`src/partzip.rs` lines
150–155): open the entry by name through the format library, propagating
its error through the `From<ZipError>` conversion, then read the
decompressed payload to the end.  The
`usize::value_from(compressed_size)` conversion never fails on a 64-bit
target and is elided. -/
def PartialZip.download (z : ZipModel) (filename : String) :
    Except PartialZipError (List Nat) :=
  match ZipModel.by_name z filename with
  | .error e => .error (fromZipError e)
  | .ok file => .ok file.data

/-- `PartialZipFile` (`src/partzip.rs` lines 91–100). -/
structure PartialZipFile where
  name : String
  compressed_size : Nat
  compression_method : CompressionMethod
  supported : Bool
deriving DecidableEq, Repr

/-- The record `PartialZip::list` pushes for one retrievable entry
(`src/partzip.rs` lines 121–136). -/
def toPartialZipFile (e : ZipEntry) : PartialZipFile :=
  { name := e.name
    compressed_size := e.compressed_size
    compression_method := e.method
    supported := isSupportedMethod e.method }

/-- Shallow embedding of `PartialZip::list` (`src/partzip.rs` lines
117–145).  `count` is `self.archive.len()`; `byIndex i` is the outcome of
`self.archive.by_index(i)`, `none` standing for the `Err(_)` the loop
skips with `continue`.  The loop visits `i = 0, …, count-1` in order and
appends a `PartialZipFile` for each `Ok`; it never fails. -/
def PartialZip.list (count : Nat) (byIndex : Nat → Option ZipEntry) :
    List PartialZipFile :=
  (List.range count).filterMap (fun i => (byIndex i).map toPartialZipFile)

/-- The transport-level inputs of `PartialReader::new` (`src/partzip.rs`
lines 174–214): whether the URL passes `utils::url_is_valid`, the
`content_length_download().to_u64()` of the initial body-less request
(`none` when the conversion fails, e.g. curl's `-1` for an unreported
length), and the same quantity plus the HTTP status code for the
`bytes=0-0` range probe. -/
structure ServerModel where
  urlValid : Bool
  headContentLength : Option Nat
  probeContentLength : Option Nat
  probeStatus : Nat
deriving DecidableEq, Repr

/-- The reader state `PartialReader::new` returns on success: `file_size`
from the metadata probe and `pos = 0`. -/
structure ReaderState where
  file_size : Nat
  pos : Nat
deriving DecidableEq, Repr

/-- Shallow embedding of `PartialReader::new` (`src/partzip.rs` lines
174–214).  Order of checks as in the source: URL validity, then the
metadata request's content length (`?` wraps its `io::Error` as
`ZipRsError(Io)`), then — only when `must_ranged` — the `bytes=0-0`
probe: its content length must convert (`io::Error` otherwise), equal 1,
and come with status 206, each failure of the last two being
`RangeNotSupported`. -/
def PartialReader.new (srv : ServerModel) (must_ranged : Bool) :
    Except PartialZipError ReaderState :=
  if !srv.urlValid then .error .invalidUrl
  else
    match srv.headContentLength with
    | none => .error (.zipRsError (.ioError "invalid content length"))
    | some file_size =>
      if must_ranged then
        match srv.probeContentLength with
        | none => .error (.zipRsError (.ioError "can not perform range request"))
        | some head_size =>
          if head_size ≠ 1 then .error .rangeNotSupported
          else if srv.probeStatus ≠ 206 then .error .rangeNotSupported
          else .ok { file_size := file_size, pos := 0 }
      else .ok { file_size := file_size, pos := 0 }

/-- Shallow embedding of `PartialZip::new` (`src/partzip.rs` lines
107–115): build the reader (propagating its error with `?`, so nothing
further runs on failure), then hand the buffered reader to
`ZipArchive::new`.  The directory parse performed by the format library
is abstracted as `parse`; its failure is wrapped by `From<ZipError>`. -/
def PartialZip.new (srv : ServerModel) (must_ranged : Bool)
    (parse : ReaderState → Except ZipError ZipModel) :
    Except PartialZipError ZipModel :=
  match PartialReader.new srv must_ranged with
  | .error e => .error e
  | .ok reader =>
    match parse reader with
    | .error e => .error (fromZipError e)
    | .ok archive => .ok archive

/-! ## Helper lemmas -/

theorem checkedAddU64_eq_some {a b c : Nat} :
    checkedAddU64 a b = some c ↔ a + b ≤ U64MAX ∧ c = a + b := by
  unfold checkedAddU64
  split
  · simp only [Option.some.injEq]
    constructor
    · intro h; exact ⟨by assumption, h.symm⟩
    · intro h; exact h.2.symm
  · simp only [reduceCtorEq, false_iff, not_and]
    intro h; omega

theorem checkedSubU64_eq_some {a b c : Nat} :
    checkedSubU64 a b = some c ↔ b ≤ a ∧ c = a - b := by
  unfold checkedSubU64
  split
  · simp only [Option.some.injEq]
    constructor
    · intro h; exact ⟨by assumption, h.symm⟩
    · intro h; exact h.2.symm
  · simp only [reduceCtorEq, false_iff, not_and]
    intro h; omega

theorem length_filterMap_add_length_filter_isNone {α β : Type} (f : α → Option β)
    (l : List α) :
    (l.filterMap f).length + (l.filter (fun a => (f a).isNone)).length = l.length := by
  induction l with
  | nil => simp
  | cons a t ih =>
    cases hfa : f a <;>
      simp [List.filterMap_cons, List.filter_cons, hfa] <;> omega

theorem isSupportedMethod_iff (m : CompressionMethod) :
    isSupportedMethod m = true ↔
      (m = .stored ∨ m = .deflated ∨ m = .bzip2 ∨ m = .zstd) := by
  cases m <;> simp [isSupportedMethod]

/-- Closed-form characterization of `PartialReader.read`: every branch of
the source, with each checked-arithmetic guard spelled out as the
condition under which it fires.  (The `file_size - 1` underflow branch is
unreachable: it would need `file_size = 0`, which the end-of-stream check
already caught.) -/
theorem read_eq (data : Nat → Nat) (file_size pos bufLen : Nat) :
    PartialReader.read data file_size pos bufLen =
      if file_size ≤ pos then .ok ([], pos)
      else if U64MAX < pos + bufLen then .error .addOverflow
      else if pos + bufLen = 0 then .error .subUnderflow
      else if min (pos + bufLen - 1) (file_size - 1) < pos then .error .endLtStart
      else if U64MAX <
          pos + min (min (pos + bufLen - 1) (file_size - 1) - pos + 1) bufLen then
        .error .posOverflow
      else .ok
        (((List.range (min (pos + bufLen - 1) (file_size - 1) - pos + 1)).map
            (fun i => data (pos + i))).take bufLen,
         pos + min (min (pos + bufLen - 1) (file_size - 1) - pos + 1) bufLen) := by
  unfold PartialReader.read
  by_cases h1 : file_size ≤ pos
  · simp only [if_pos h1]
  · simp only [if_neg h1]
    by_cases h2 : U64MAX < pos + bufLen
    · have hadd : checkedAddU64 pos bufLen = none := by
        unfold checkedAddU64; rw [if_neg (by omega)]
      simp only [hadd, if_pos h2]
    · have hadd : checkedAddU64 pos bufLen = some (pos + bufLen) := by
        unfold checkedAddU64; rw [if_pos (by omega)]
      simp only [hadd, if_neg h2]
      by_cases h3 : pos + bufLen = 0
      · have hsub : checkedSubU64 (pos + bufLen) 1 = none := by
          unfold checkedSubU64; rw [if_neg (by omega)]
        simp only [hsub, if_pos h3]
      · have hsub : checkedSubU64 (pos + bufLen) 1 = some (pos + bufLen - 1) := by
          unfold checkedSubU64; rw [if_pos (by omega)]
        have hfs1 : checkedSubU64 file_size 1 = some (file_size - 1) := by
          unfold checkedSubU64; rw [if_pos (by omega)]
        simp only [hsub, hfs1, if_neg h3]
        by_cases h4 : min (pos + bufLen - 1) (file_size - 1) < pos
        · simp only [if_pos h4]
        · simp only [if_neg h4, List.length_map, List.length_range]
          by_cases h5 : U64MAX <
              pos + min (min (pos + bufLen - 1) (file_size - 1) - pos + 1) bufLen
          · have hadd2 : checkedAddU64 pos
                (min (min (pos + bufLen - 1) (file_size - 1) - pos + 1) bufLen) =
                none := by
              unfold checkedAddU64; rw [if_neg (by omega)]
            simp only [hadd2, if_pos h5]
          · have hadd2 : checkedAddU64 pos
                (min (min (pos + bufLen - 1) (file_size - 1) - pos + 1) bufLen) =
                some (pos +
                  min (min (pos + bufLen - 1) (file_size - 1) - pos + 1) bufLen) := by
              unfold checkedAddU64; rw [if_pos (by omega)]
            simp only [hadd2, if_neg h5]

theorem seekWithOffset_error_preserves_pos (pos base : Nat) (off : Int)
    (e : SeekErr) (p' : Nat)
    (h : seekWithOffset pos base off = (.error e, p')) : p' = pos := by
  unfold seekWithOffset at h
  split at h
  · split at h
    · rw [Prod.mk.injEq] at h; exact absurd h.1 (by simp)
    · rw [Prod.mk.injEq] at h; exact h.2.symm
  · split at h
    · rw [Prod.mk.injEq] at h; exact h.2.symm
    · split at h
      · rw [Prod.mk.injEq] at h; exact absurd h.1 (by simp)
      · rw [Prod.mk.injEq] at h; exact h.2.symm

theorem seekWithOffset_spec (pos base : Nat) (off : Int)
    (hbase : base ≤ U64MAX) (hlo : I64MIN < off) :
    (0 ≤ (base : Int) + off → (base : Int) + off ≤ (U64MAX : Int) →
      seekWithOffset pos base off =
        (.ok ((base : Int) + off).toNat, ((base : Int) + off).toNat)) ∧
    ((base : Int) + off < 0 ∨ (U64MAX : Int) < (base : Int) + off →
      seekWithOffset pos base off = (.error .invalidSeek, pos)) := by
  unfold seekWithOffset
  by_cases hoff : 0 ≤ off
  · rw [if_pos hoff]
    constructor
    · intro h0 hle
      have hadd : checkedAddU64 base off.toNat = some (base + off.toNat) := by
        unfold checkedAddU64; rw [if_pos (by omega)]
      rw [hadd]
      have htn : ((base : Int) + off).toNat = base + off.toNat := by omega
      rw [htn]
    · intro hcase
      rcases hcase with hc | hc
      · exact absurd hc (by omega)
      · have hadd : checkedAddU64 base off.toNat = none := by
          unfold checkedAddU64; rw [if_neg (by omega)]
        rw [hadd]
  · rw [if_neg hoff, if_neg (ne_of_gt hlo)]
    constructor
    · intro h0 hle
      have hsub : checkedSubU64 base (-off).toNat = some (base - (-off).toNat) := by
        unfold checkedSubU64; rw [if_pos (by omega)]
      rw [hsub]
      have htn : ((base : Int) + off).toNat = base - (-off).toNat := by omega
      rw [htn]
    · intro hcase
      rcases hcase with hc | hc
      · have hsub : checkedSubU64 base (-off).toNat = none := by
          unfold checkedSubU64; rw [if_neg (by omega)]
        rw [hsub]
      · exact absurd hc (by omega)

/-! ## Claims -/

/-- Claim C4 (confirmed): for every `n` — including `n > total_size` —
`seek(FromStart(n))` succeeds, sets `position` to exactly `n` and
returns `n`; and every subsequent `read` entered with
`position ≥ total_size` returns `Ok(0)` (zero bytes), never an error. -/
theorem seek_fromStart_unconditional_and_read_past_end_empty
    (data : Nat → Nat) (file_size pos n bufLen : Nat) :
    PartialReader.seek file_size pos (.fromStart n) = (.ok n, n) ∧
    (file_size ≤ n → PartialReader.read data file_size n bufLen = .ok ([], n)) := by
  refine ⟨rfl, fun h => ?_⟩
  unfold PartialReader.read
  rw [if_pos h]

/-- Witness for C4 at `file_size = 2`, `seek(FromStart(5))`, then a read
with a 3-byte buffer. -/
theorem seek_fromStart_unconditional_and_read_past_end_empty_witness :
    PartialReader.seek 2 0 (.fromStart 5) = (.ok 5, 5) ∧
    PartialReader.read (fun i => i) 2 5 3 = .ok ([], 5) :=
  ⟨(seek_fromStart_unconditional_and_read_past_end_empty (fun i => i) 2 0 5 3).1,
   (seek_fromStart_unconditional_and_read_past_end_empty (fun i => i) 2 0 5 3).2
     (by decide)⟩

/-- Counterexample to claim C2 as stated: `seek(FromStart(11))` on a
stream of `total_size = 10` succeeds and leaves `position = 11`, which
exceeds `total_size` — so a successful operation can leave the position
past the end. -/
theorem seek_fromStart_exceeds_total_size_counterexample :
    PartialReader.seek 10 0 (.fromStart 11) = (.ok 11, 11) ∧ 10 < 11 := by decide

/-- Claim C2 (corrected): the invariant holds for `read` but not for
`seek` — a successful `read` entered with `position ≤ total_size` leaves
`position ≤ total_size`, while `seek(FromStart(n))` (or a relative seek
resolving past the end) sets `position` beyond `total_size`. -/
theorem read_success_preserves_position_le_total_size
    (data : Nat → Nat) (file_size pos bufLen : Nat) (bytes : List Nat) (pos' : Nat)
    (h : PartialReader.read data file_size pos bufLen = .ok (bytes, pos'))
    (hpos : pos ≤ file_size) : pos' ≤ file_size := by
  rw [read_eq] at h
  split_ifs at h <;>
    · rw [Except.ok.injEq, Prod.mk.injEq] at h
      obtain ⟨-, hp⟩ := h
      omega

/-- Witness for C2's corrected statement: reading 2 bytes at position 0
of a 3-byte resource ends at position `2 ≤ 3`. -/
theorem read_success_preserves_position_le_total_size_witness :
    PartialReader.read (fun _ => 7) 3 0 2 = .ok ([7, 7], 2) ∧ (2 : Nat) ≤ 3 :=
  ⟨by decide,
   read_success_preserves_position_le_total_size (fun _ => 7) 3 0 2 [7, 7] 2
     (by decide) (by decide)⟩

/-- Claim C10 (confirmed): whenever `seek` returns an error (the
invalid-seek error or the `i64::MIN` conversion error), the `pos` field
is exactly what it was before the call — a failed seek never moves the
stream. -/
theorem seek_error_preserves_position (file_size pos : Nat) (sf : SeekFrom)
    (e : SeekErr) (pos' : Nat)
    (h : PartialReader.seek file_size pos sf = (.error e, pos')) : pos' = pos := by
  cases sf with
  | fromStart n =>
    simp only [PartialReader.seek] at h
    rw [Prod.mk.injEq] at h
    exact absurd h.1 (by simp)
  | fromEnd n =>
    simp only [PartialReader.seek] at h
    exact seekWithOffset_error_preserves_pos pos file_size n e pos' h
  | fromCurrent n =>
    simp only [PartialReader.seek] at h
    exact seekWithOffset_error_preserves_pos pos pos n e pos' h

/-- Witness for C10: `seek(FromCurrent(-4))` at position 3 fails and the
position is still 3. -/
theorem seek_error_preserves_position_witness :
    PartialReader.seek 5 3 (.fromCurrent (-4)) = (.error .invalidSeek, 3) ∧
    (3 : Nat) = 3 :=
  ⟨by decide,
   seek_error_preserves_position 5 3 (.fromCurrent (-4)) .invalidSeek 3 (by decide)⟩

/-- Counterexample to claim C7 as stated: on a session whose directory
has no entries, `download "a.txt"` fails with
`ZipRsError(FileNotFound)` — the zip crate's error wrapped by the
`From<ZipError>` conversion — which is a different variant from the
crate's own `PartialZipError::FileNotFound`. -/
theorem download_missing_name_counterexample :
    PartialZip.download ⟨[]⟩ "a.txt" = .error (.zipRsError .fileNotFound) ∧
    (Except.error (PartialZipError.zipRsError .fileNotFound) :
        Except PartialZipError (List Nat)) ≠ .error .fileNotFound := by decide

/-- Claim C7 (corrected): when no entry with the requested exact name
exists, `download` fails with the format library's file-not-found error
wrapped as `ZipRsError(FileNotFound)`; the `PartialZipError::FileNotFound`
variant itself is never produced by `download`. -/
theorem download_missing_name_wraps_zip_error (z : ZipModel) (filename : String)
    (h : z.entries.find? (fun e => e.name == filename) = none) :
    PartialZip.download z filename = .error (.zipRsError .fileNotFound) ∧
    ∀ e : ZipError, PartialZipError.zipRsError e ≠ .fileNotFound := by
  constructor
  · unfold PartialZip.download ZipModel.by_name
    rw [h]
    rfl
  · intro e he
    exact PartialZipError.noConfusion he

/-- Witness for C7's corrected statement on a one-entry directory missing
the requested name. -/
theorem download_missing_name_wraps_zip_error_witness :
    (ZipModel.mk [⟨"b.txt", 5, .stored, [1, 2]⟩]).entries.find?
      (fun e => e.name == "missing.txt") = none ∧
    PartialZip.download ⟨[⟨"b.txt", 5, .stored, [1, 2]⟩]⟩ "missing.txt" =
      .error (.zipRsError .fileNotFound) :=
  ⟨by decide,
   (download_missing_name_wraps_zip_error ⟨[⟨"b.txt", 5, .stored, [1, 2]⟩]⟩
     "missing.txt" (by decide)).1⟩

/-- Counterexample to claim C8 as stated: downloading an entry declared
with the unsupported method tag 14 fails with the format library's
entry-open error wrapped as `ZipRsError(UnsupportedArchive(…))`, not with
`UnsupportedCompression(14)`. -/
theorem download_unsupported_method_counterexample :
    PartialZip.download ⟨[⟨"c.lzma", 10, .otherMethod 14, []⟩]⟩ "c.lzma" =
      .error (.zipRsError (.unsupportedArchive "Compression method not supported")) ∧
    (Except.error
        (PartialZipError.zipRsError
          (.unsupportedArchive "Compression method not supported")) :
        Except PartialZipError (List Nat)) ≠
      .error (.unsupportedCompression 14) := by decide

/-- Claim C8 (corrected): for an entry whose declared method is not one
of the four supported codecs, `download` fails with the format library's
entry-open error wrapped as `ZipRsError(UnsupportedArchive(…))`; the
`UnsupportedCompression(method)` variant carrying the tag is never
produced by `download`. -/
theorem download_unsupported_method_wraps_zip_error (z : ZipModel)
    (filename : String) (entry : ZipEntry)
    (hfind : z.entries.find? (fun e => e.name == filename) = some entry)
    (hunsup : isSupportedMethod entry.method = false) :
    PartialZip.download z filename =
      .error (.zipRsError (.unsupportedArchive "Compression method not supported")) ∧
    ∀ tag : Nat,
      PartialZipError.zipRsError
          (.unsupportedArchive "Compression method not supported") ≠
        .unsupportedCompression tag := by
  constructor
  · unfold PartialZip.download ZipModel.by_name
    rw [hfind]
    simp [hunsup, fromZipError]
  · intro tag htag
    exact PartialZipError.noConfusion htag

/-- Witness for C8's corrected statement on a directory holding one entry
compressed with method tag 14. -/
theorem download_unsupported_method_wraps_zip_error_witness :
    isSupportedMethod (CompressionMethod.otherMethod 14) = false ∧
    PartialZip.download ⟨[⟨"c.lzma", 10, .otherMethod 14, [3]⟩]⟩ "c.lzma" =
      .error (.zipRsError (.unsupportedArchive "Compression method not supported")) :=
  ⟨by decide,
   (download_unsupported_method_wraps_zip_error ⟨[⟨"c.lzma", 10, .otherMethod 14, [3]⟩]⟩
     "c.lzma" ⟨"c.lzma", 10, .otherMethod 14, [3]⟩ (by decide) (by decide)).1⟩

/-- Counterexample to claim C1 as stated: at `total_size = 2^64 - 1` and
`start = 2^64 - 2 < total_size`, a read with a (non-empty) 2-byte buffer
does not return `min(2, 1) = 1` byte — the checked `start + buf.len()`
addition overflows `u64` and `read` errors out. -/
theorem read_u64_overflow_counterexample :
    PartialReader.read (fun _ => 0) (2 ^ 64 - 1) (2 ^ 64 - 2) 2 =
      .error .addOverflow ∧
    2 ^ 64 - 2 < 2 ^ 64 - 1 := by decide

/-- Claim C1 (corrected): additionally assuming `start + buf.len()` does
not overflow `u64`, a read at `start < total_size` with a non-empty
buffer returns exactly `min(buf.len(), total_size - start)` bytes, equal
to the slice of the remote resource beginning at `start`, and the
position advances by exactly that count (a preceding `seek(FromStart)`
having put the stream at `start`). -/
theorem read_after_seek_returns_exact_slice
    (data : Nat → Nat) (file_size start bufLen : Nat)
    (hstart : start < file_size)
    (hbuf : 1 ≤ bufLen) (hadd : start + bufLen ≤ U64MAX) :
    PartialReader.seek file_size 0 (.fromStart start) = (.ok start, start) ∧
    PartialReader.read data file_size start bufLen =
      .ok ((List.range (min bufLen (file_size - start))).map (fun i => data (start + i)),
        start + min bufLen (file_size - start)) := by
  refine ⟨rfl, ?_⟩
  rw [read_eq]
  rw [if_neg (by omega), if_neg (by omega), if_neg (by omega), if_neg (by omega),
    if_neg (by omega)]
  have hmin : min (start + bufLen - 1) (file_size - 1) - start + 1 =
      min bufLen (file_size - start) := by omega
  rw [hmin]
  have hmin2 : min (min bufLen (file_size - start)) bufLen =
      min bufLen (file_size - start) := by omega
  rw [hmin2]
  rw [List.take_of_length_le (by simp)]

/-- Witness for C1's corrected statement: 5-byte buffer at `start = 1` of
a 3-byte resource yields the 2 remaining bytes and position 3. -/
theorem read_after_seek_returns_exact_slice_witness :
    1 < 3 ∧
    PartialReader.read (fun i => i + 10) 3 1 5 = .ok ([11, 12], 3) := by
  refine ⟨by decide, ?_⟩
  have h := (read_after_seek_returns_exact_slice (fun i => i + 10) 3 1 5
    (by decide) (by decide) (by decide)).2
  rw [h]
  decide

/-- Counterexample to claim C3 as stated: entered with
`position = 1 < total_size = 2` but an empty caller buffer, the
computation yields `end = min(1 + 0 - 1, 1) = 0 < 1 = start` and `read`
takes the `end < start` arithmetic-inconsistency error branch. -/
theorem read_empty_buffer_counterexample :
    PartialReader.read (fun _ => 0) 2 1 0 = .error .endLtStart ∧
    PartialReader.read (fun _ => 0) 1 0 0 = .error .subUnderflow := by decide

/-- Claim C3 (corrected): for every call entered with
`position < total_size` and a **non-empty** caller buffer, the
`end < start` branch is unreachable and neither checked subtraction
underflows; with an empty buffer the computation does reach the
`end < start` error (or the `-1` underflow at `position = 0`). -/
theorem read_nonempty_buffer_no_inconsistency
    (data : Nat → Nat) (file_size pos bufLen : Nat)
    (hpos : pos < file_size) (hbuf : 1 ≤ bufLen) :
    PartialReader.read data file_size pos bufLen ≠ .error .endLtStart ∧
    PartialReader.read data file_size pos bufLen ≠ .error .subUnderflow ∧
    PartialReader.read data file_size pos bufLen ≠ .error .fileSizeUnderflow := by
  rw [read_eq]
  split_ifs with h1 h2 h3 h4 h5
  · exact absurd h1 (by omega)
  · exact ⟨by simp, by simp, by simp⟩
  · exact absurd h3 (by omega)
  · exact absurd h4 (by omega)
  · exact ⟨by simp, by simp, by simp⟩
  · exact ⟨by simp, by simp, by simp⟩

/-- Witness for C3's corrected statement at `position = 1`,
`total_size = 3`, 2-byte buffer. -/
theorem read_nonempty_buffer_no_inconsistency_witness :
    1 < 3 ∧
    PartialReader.read (fun i => i) 3 1 2 ≠ .error .endLtStart :=
  ⟨by decide,
   (read_nonempty_buffer_no_inconsistency (fun i => i) 3 1 2 (by decide) (by decide)).1⟩

/-- Counterexample to claim C5 as stated: for `total_size = 2^63` and
`offset = i64::MIN = -2^63`, the mathematical target
`total_size + offset = 0` is a representable non-negative position, yet
`seek(FromEnd(i64::MIN))` fails — `offset.wrapping_neg()` is still
`i64::MIN` and the `u64` conversion errors out (with the conversion
error, not even the invalid-seek error). -/
theorem seek_i64min_counterexample :
    PartialReader.seek (2 ^ 63) 7 (.fromEnd (-(2 ^ 63))) = (.error .convError, 7) ∧
    (2 ^ 63 : Int) + -(2 ^ 63) = 0 := by decide

/-- Claim C5 (corrected): for every signed offset `n` with
`i64::MIN < n < 2^63`, `seek(FromCurrent(n))` computes `position + n` and
`seek(FromEnd(n))` computes `total_size + n` with checked unsigned
arithmetic: a representable non-negative result succeeds, sets and
returns that position, agreeing with `seek(FromStart(·))`; a negative or
overflowing result fails with the invalid-seek error.  For
`n = i64::MIN` the call always fails (see the counterexample). -/
theorem seek_relative_checked_arithmetic (file_size pos : Nat) (off : Int)
    (hfs : file_size ≤ U64MAX) (hpos : pos ≤ U64MAX)
    (hlo : I64MIN < off) (_hhi : off < 2 ^ 63) :
    (0 ≤ (file_size : Int) + off → (file_size : Int) + off ≤ (U64MAX : Int) →
      PartialReader.seek file_size pos (.fromEnd off) =
        PartialReader.seek file_size pos (.fromStart ((file_size : Int) + off).toNat)) ∧
    ((file_size : Int) + off < 0 ∨ (U64MAX : Int) < (file_size : Int) + off →
      PartialReader.seek file_size pos (.fromEnd off) = (.error .invalidSeek, pos)) ∧
    (0 ≤ (pos : Int) + off → (pos : Int) + off ≤ (U64MAX : Int) →
      PartialReader.seek file_size pos (.fromCurrent off) =
        PartialReader.seek file_size pos (.fromStart ((pos : Int) + off).toNat)) ∧
    ((pos : Int) + off < 0 ∨ (U64MAX : Int) < (pos : Int) + off →
      PartialReader.seek file_size pos (.fromCurrent off) = (.error .invalidSeek, pos)) := by
  refine ⟨fun h0 hle => ?_, fun hc => ?_, fun h0 hle => ?_, fun hc => ?_⟩
  · simp only [PartialReader.seek]
    exact (seekWithOffset_spec pos file_size off hfs hlo).1 h0 hle
  · simp only [PartialReader.seek]
    exact (seekWithOffset_spec pos file_size off hfs hlo).2 hc
  · simp only [PartialReader.seek]
    exact (seekWithOffset_spec pos pos off hpos hlo).1 h0 hle
  · simp only [PartialReader.seek]
    exact (seekWithOffset_spec pos pos off hpos hlo).2 hc

/-- Witness for C5's corrected statement: `FromEnd(-3)` on a 10-byte
stream lands at 7, `FromCurrent(-3)` from position 4 lands at 1, and
`FromCurrent(-5)` from position 4 fails with the invalid-seek error. -/
theorem seek_relative_checked_arithmetic_witness :
    PartialReader.seek 10 4 (.fromEnd (-3)) = (.ok 7, 7) ∧
    PartialReader.seek 10 4 (.fromCurrent (-3)) = (.ok 1, 1) ∧
    PartialReader.seek 10 4 (.fromCurrent (-5)) = (.error .invalidSeek, 4) := by
  refine ⟨?_, ?_, ?_⟩
  · rw [(seek_relative_checked_arithmetic 10 4 (-3) (by decide) (by decide)
      (by decide) (by decide)).1 (by decide) (by decide)]
    decide
  · rw [(seek_relative_checked_arithmetic 10 4 (-3) (by decide) (by decide)
      (by decide) (by decide)).2.2.1 (by decide) (by decide)]
    decide
  · exact (seek_relative_checked_arithmetic 10 4 (-5) (by decide) (by decide)
      (by decide) (by decide)).2.2.2 (Or.inl (by decide))

/-- Counterexample to claim C6 as stated: when the range probe reports no
usable content length (curl reports `-1` for an unreported length, whose
`u64` conversion fails) the probe response certainly does not "report
exactly 1 byte of content", yet construction fails with the wrapped data
error, not with `RangeNotSupported`. -/
theorem range_probe_no_length_counterexample :
    PartialReader.new ⟨true, some 100, none, 206⟩ true =
      .error (.zipRsError (.ioError "can not perform range request")) ∧
    PartialZipError.zipRsError (.ioError "can not perform range request") ≠
      .rangeNotSupported := by decide

/-- Claim C6 (corrected): with `must_ranged` set, construction issues the
`bytes=0-0` probe; when the probe reports a usable content length,
construction fails with `RangeNotSupported` unless that length is exactly
1 and the status is 206 — and no ZIP directory parse is performed
(the result is `RangeNotSupported` for every possible parse outcome);
when length 1 and status 206 are both reported, the reader is built.
A probe reporting no usable length fails with a wrapped data error
instead (see the counterexample).  A server answering a ranged request
with status 200 and the full body is the witness's instance. -/
theorem range_probe_gates_construction (srv : ServerModel) (sz hlen : Nat)
    (hurl : srv.urlValid = true)
    (hhead : srv.headContentLength = some sz)
    (hprobe : srv.probeContentLength = some hlen) :
    ((hlen ≠ 1 ∨ srv.probeStatus ≠ 206) →
      ∀ parse : ReaderState → Except ZipError ZipModel,
        PartialZip.new srv true parse = .error .rangeNotSupported) ∧
    (hlen = 1 → srv.probeStatus = 206 →
      PartialReader.new srv true = .ok ⟨sz, 0⟩) := by
  constructor
  · intro hbad parse
    rcases hbad with hb | hb
    · simp [PartialZip.new, PartialReader.new, hurl, hhead, hprobe, hb]
    · by_cases h1 : hlen = 1
      · simp [PartialZip.new, PartialReader.new, hurl, hhead, hprobe, h1, hb]
      · simp [PartialZip.new, PartialReader.new, hurl, hhead, hprobe, h1]
  · intro h1 h206
    simp [PartialReader.new, hurl, hhead, hprobe, h1, h206]

/-- Witness for C6's corrected statement: a server that ignores the range
header and answers the `bytes=0-0` probe with status 200 and the full
100-byte body; construction fails with `RangeNotSupported` whatever the
directory parse would have produced. -/
theorem range_probe_gates_construction_witness :
    PartialZip.new ⟨true, some 100, some 100, 200⟩ true (fun _ => .ok ⟨[]⟩) =
      .error .rangeNotSupported :=
  (range_probe_gates_construction ⟨true, some 100, some 100, 200⟩ 100 100
    rfl rfl rfl).1 (Or.inl (by decide)) (fun _ => .ok ⟨[]⟩)

/-- Claim C9 (confirmed): `list` never fails; it returns, in the format
library's index order, exactly the entries whose metadata is retrievable
(one output per retrievable index — `count` minus the number of failing
indices), each with `supported` true iff the declared method is one of
store, deflate, bzip2, zstd. -/
theorem list_is_best_effort_in_index_order (count : Nat)
    (byIndex : Nat → Option ZipEntry) :
    PartialZip.list count byIndex =
      ((List.range count).filterMap byIndex).map toPartialZipFile ∧
    (PartialZip.list count byIndex).length +
      ((List.range count).filter (fun i => (byIndex i).isNone)).length = count ∧
    ∀ pf ∈ PartialZip.list count byIndex,
      (pf.supported = true ↔
        (pf.compression_method = .stored ∨ pf.compression_method = .deflated ∨
          pf.compression_method = .bzip2 ∨ pf.compression_method = .zstd)) := by
  have hmain : PartialZip.list count byIndex =
      ((List.range count).filterMap byIndex).map toPartialZipFile := by
    unfold PartialZip.list
    exact (List.map_filterMap byIndex toPartialZipFile (List.range count)).symm
  refine ⟨hmain, ?_, ?_⟩
  · have h := length_filterMap_add_length_filter_isNone byIndex (List.range count)
    rw [List.length_range] at h
    rw [hmain, List.length_map]
    exact h
  · intro pf hpf
    rw [hmain, List.mem_map] at hpf
    obtain ⟨e, -, rfl⟩ := hpf
    simpa [toPartialZipFile] using isSupportedMethod_iff e.method

/-- Witness for C9 on a 3-index directory whose middle record is
unreadable: two entries come back, in order, with `supported` false for
the unknown method 9. -/
theorem list_is_best_effort_in_index_order_witness :
    toPartialZipFile ⟨"c.bin", 4, .otherMethod 9, []⟩ ∈
      PartialZip.list 3 (fun i =>
        if i = 0 then some ⟨"a.txt", 3, .stored, []⟩
        else if i = 2 then some ⟨"c.bin", 4, .otherMethod 9, []⟩ else none) ∧
    ((toPartialZipFile ⟨"c.bin", 4, .otherMethod 9, []⟩).supported = true ↔
      ((toPartialZipFile ⟨"c.bin", 4, .otherMethod 9, []⟩).compression_method =
          .stored ∨
        (toPartialZipFile ⟨"c.bin", 4, .otherMethod 9, []⟩).compression_method =
          .deflated ∨
        (toPartialZipFile ⟨"c.bin", 4, .otherMethod 9, []⟩).compression_method =
          .bzip2 ∨
        (toPartialZipFile ⟨"c.bin", 4, .otherMethod 9, []⟩).compression_method =
          .zstd)) :=
  ⟨by decide,
   (list_is_best_effort_in_index_order 3 (fun i =>
        if i = 0 then some ⟨"a.txt", 3, .stored, []⟩
        else if i = 2 then some ⟨"c.bin", 4, .otherMethod 9, []⟩ else none)).2.2
     (toPartialZipFile ⟨"c.bin", 4, .otherMethod 9, []⟩) (by decide)⟩

end Partzip
